import Mathlib

/-!
Verification of the innerVoice session/routing/queue/process-lifecycle
subsystem.  Definitions are shallow embeddings of the TypeScript source:
queue-manager.ts (task queue), the Telegram bridge main module (session
registry, message router, pending questions, generic inbox) and the
Claude spawner (process supervisor).  Time is modelled as milliseconds
since the epoch (Nat); durable queue files are modelled as an
association list from sanitized file key to task list.
-/

namespace InnerVoice

/-! Task queue data model (queue-manager.ts) -/

inductive TaskStatus
  | pending
  | delivered
  | expired
deriving DecidableEq

inductive TaskPriority
  | low
  | normal
  | high
deriving DecidableEq

structure QueuedTask where
  id : String
  projectName : String
  projectPath : String
  message : String
  from_ : String
  timestamp : Nat
  priority : TaskPriority
  status : TaskStatus
deriving DecidableEq

/-- The durable queue directory: one record set per sanitized project key,
mirroring one JSON file per project under the queue directory. -/
abbrev QueueStore := List (String × List QueuedTask)

/-- Character class kept by the sanitizer regex, which drops everything
outside a-z, 0-9, hyphen and underscore, case-insensitively. -/
def isSafeNameChar (c : Char) : Bool :=
  (decide ('a' ≤ c) && decide (c ≤ 'z')) ||
  (decide ('A' ≤ c) && decide (c ≤ 'Z')) ||
  (decide ('0' ≤ c) && decide (c ≤ '9')) ||
  c == '-' || c == '_'

/-- getQueuePath: fold unsafe characters to underscore, then lowercase.
The directory prefix and the .json extension are dropped; the sanitized
name is the store key. -/
def getQueueKey (projectName : String) : String :=
  String.mk (projectName.toList.map (fun c => if isSafeNameChar c then c.toLower else '_'))

/-- Read a queue file; a missing file loads as the empty list. -/
def loadQueue (store : QueueStore) (projectName : String) : List QueuedTask :=
  (List.lookup (getQueueKey projectName) store).getD []

/-- Overwrite the queue file for a project (create it when absent). -/
def saveQueue (store : QueueStore) (projectName : String)
    (tasks : List QueuedTask) : QueueStore :=
  let key := getQueueKey projectName
  if (List.lookup key store).isSome then
    store.map (fun p => if p.1 == key then (p.1, tasks) else p)
  else
    store ++ [(key, tasks)]

/-- Fields of a task before enqueueTask assigns id and status. -/
structure NewTaskInput where
  projectName : String
  projectPath : String
  message : String
  from_ : String
  timestamp : Nat
  priority : TaskPriority
deriving DecidableEq

/-- Task ids are the current time joined to a random suffix. -/
def makeTaskId (now : Nat) (rand : String) : String :=
  toString now ++ "-" ++ rand

/-- enqueueTask: load the project queue, append a fresh pending task,
save, and return the new task. -/
def enqueueTask (store : QueueStore) (t : NewTaskInput) (now : Nat)
    (rand : String) : QueueStore × QueuedTask :=
  let queue := loadQueue store t.projectName
  let newTask : QueuedTask :=
    { id := makeTaskId now rand
      projectName := t.projectName
      projectPath := t.projectPath
      message := t.message
      from_ := t.from_
      timestamp := t.timestamp
      priority := t.priority
      status := TaskStatus.pending }
  (saveQueue store t.projectName (queue ++ [newTask]), newTask)

/-- getPendingTasks: the pending entries of the project queue. -/
def getPendingTasks (store : QueueStore) (projectName : String) : List QueuedTask :=
  (loadQueue store projectName).filter (fun t => t.status == TaskStatus.pending)

/-- markTaskDelivered flips the first task with the given id to delivered. -/
def markFirstDelivered : List QueuedTask → String → List QueuedTask
  | [], _ => []
  | t :: rest, taskId =>
    if t.id == taskId then { t with status := TaskStatus.delivered } :: rest
    else t :: markFirstDelivered rest taskId

/-- markTaskDelivered: no-op when the id is absent, otherwise flip the
status and save. -/
def markTaskDelivered (store : QueueStore) (projectName taskId : String) : QueueStore :=
  let queue := loadQueue store projectName
  if (queue.find? (fun t => t.id == taskId)).isSome then
    saveQueue store projectName (markFirstDelivered queue taskId)
  else
    store

def msPerDay : Nat := 86400000

/-- cleanupOldTasks: drop delivered tasks whose timestamp is strictly
before the cutoff (now minus daysOld days); other tasks are kept.  The
file is rewritten only when something was removed.  Returns the new
store and the number of removed tasks. -/
def cleanupOldTasks (store : QueueStore) (projectName : String)
    (now daysOld : Nat) : QueueStore × Nat :=
  let queue := loadQueue store projectName
  let cutoff := now - daysOld * msPerDay
  let filtered := queue.filter
    (fun t => !(t.status == TaskStatus.delivered && decide (t.timestamp < cutoff)))
  let removed := queue.length - filtered.length
  (if removed > 0 then saveQueue store projectName filtered else store, removed)

/-- listProjectsWithQueues: strip the extension from every queue file
name and replace every underscore with a hyphen (the global
single-character regex substitution is the per-character map below). -/
def underscoreToHyphen (s : String) : String :=
  String.mk (s.toList.map (fun c => if c == '_' then '-' else c))

def listProjectsWithQueues (store : QueueStore) : List String :=
  store.map (fun p => underscoreToHyphen p.1)

structure QueueSummaryEntry where
  projectName : String
  pending : Nat
  total : Nat
deriving DecidableEq

/-- getQueueSummary: reload each listed project queue, count pending and
total tasks, and keep only the projects with a positive total. -/
def getQueueSummary (store : QueueStore) : List QueueSummaryEntry :=
  ((listProjectsWithQueues store).map (fun projectName =>
    let queue := loadQueue store projectName
    { projectName := projectName
      pending := (queue.filter (fun t => t.status == TaskStatus.pending)).length
      total := queue.length : QueueSummaryEntry })).filter
    (fun s => s.total > 0)

/-! Session registry (bridge main module) -/

inductive SessionStatus
  | active
  | idle
deriving DecidableEq

structure ClaudeSession where
  id : String
  projectName : String
  projectPath : String
  startTime : Nat
  lastActivity : Nat
  status : SessionStatus
deriving DecidableEq

/-- The activeSessions map: session id to session, in insertion order. -/
abbrev SessionMap := List (String × ClaudeSession)

/-- Thirty minutes of inactivity, in milliseconds. -/
def SESSION_TIMEOUT : Nat := 30 * 60 * 1000

/-- One run of the periodic expiry sweep: delete every session whose
idle time strictly exceeds SESSION_TIMEOUT. -/
def sweepExpiredSessions (sessions : SessionMap) (now : Nat) : SessionMap :=
  sessions.filter
    (fun p => !decide ((now : Int) - (p.2.lastActivity : Int) > (SESSION_TIMEOUT : Int)))

/-- A row of the session listing endpoint, annotated with idleMinutes. -/
structure SessionSnapshot where
  id : String
  projectName : String
  projectPath : String
  startTime : Nat
  lastActivity : Nat
  status : SessionStatus
  idleMinutes : Int
deriving DecidableEq

def snapshotOf (now : Nat) (s : ClaudeSession) : SessionSnapshot :=
  { id := s.id
    projectName := s.projectName
    projectPath := s.projectPath
    startTime := s.startTime
    lastActivity := s.lastActivity
    status := s.status
    idleMinutes := Int.fdiv ((now : Int) - (s.lastActivity : Int)) 60000 }

/-- The sessions listing endpoint: a snapshot of every registered session. -/
def listSessions (sessions : SessionMap) (now : Nat) : List SessionSnapshot :=
  sessions.map (fun p => snapshotOf now p.2)

inductive RegisterResult
  | badRequest (error : String)
  | ok (sessionId projectName : String)
deriving DecidableEq

/-- The session registration endpoint: reject empty required fields;
refresh lastActivity and status when the id exists (project binding
untouched); otherwise append a fresh active session. -/
def registerSession (sessions : SessionMap) (sessionId projectName projectPath : String)
    (now : Nat) : SessionMap × RegisterResult :=
  if sessionId = "" ∨ projectName = "" ∨ projectPath = "" then
    (sessions, RegisterResult.badRequest "sessionId, projectName, and projectPath are required")
  else
    match List.lookup sessionId sessions with
    | some _ =>
      (sessions.map (fun p =>
        if p.1 == sessionId then
          (p.1, { p.2 with lastActivity := now, status := SessionStatus.active })
        else p),
       RegisterResult.ok sessionId projectName)
    | none =>
      (sessions ++ [(sessionId,
        { id := sessionId
          projectName := projectName
          projectPath := projectPath
          startTime := now
          lastActivity := now
          status := SessionStatus.active })],
       RegisterResult.ok sessionId projectName)

/-! Process supervisor (claude-spawner.ts) -/

/-- Bookkeeping entry for a spawned worker.  The process handle is
abstracted to its pid; the output callback is an external sink and
carries no state relevant to the claims. -/
structure SpawnedProcessEntry where
  projectName : String
  pid : Nat
  startTime : Nat
  initialPrompt : Option String
deriving DecidableEq

/-- The activeProcesses map: project name to bookkeeping entry. -/
abbrev SpawnerMap := List (String × SpawnedProcessEntry)

structure Project where
  name : String
  path : String
  autoSpawn : Bool
deriving DecidableEq

/-- Modelled from the spec: the Project Directory collaborator
(project-registry.ts is not under src); the spec gives only
find(name) returning the project record or null, so find is modelled
as first-match lookup by name.  The claims settled here hold for every
possible lookup result. -/
def findProject (projects : List Project) (name : String) : Option Project :=
  projects.find? (fun p => p.name == name)

structure SpawnResult where
  success : Bool
  message : String
  pid : Option Nat
deriving DecidableEq

/-- isClaudeRunning: a bookkeeping entry exists for the name. -/
def isClaudeRunning (procs : SpawnerMap) (projectName : String) : Bool :=
  (List.lookup projectName procs).isSome

/-- spawnClaude.  Rejected when an entry already exists for the name;
rejected when the project is not in the directory; otherwise the OS
spawn either fails (spawnError holds the error message, nothing is
recorded) or succeeds, recording a bookkeeping entry that carries the
initial prompt.  The exit and error listeners that later delete the
entry are external events, modelled by processExited below. -/
def spawnClaude (projects : List Project) (procs : SpawnerMap) (projectName : String)
    (initialPrompt : Option String) (spawnError : Option String) (pid now : Nat) :
    SpawnerMap × SpawnResult :=
  if (List.lookup projectName procs).isSome then
    (procs,
     { success := false
       message := "Claude is already running in " ++ projectName
       pid := none })
  else
    match findProject projects projectName with
    | none =>
      (procs,
       { success := false
         message := "Project \"" ++ projectName ++ "\" not found in registry. Register it first with: /register ProjectName /path/to/project"
         pid := none })
    | some _ =>
      match spawnError with
      | some err =>
        (procs,
         { success := false, message := "Failed to spawn Claude: " ++ err, pid := none })
      | none =>
        (procs ++ [(projectName,
          { projectName := projectName
            pid := pid
            startTime := now
            initialPrompt := initialPrompt })],
         { success := true
           message := "✅ Claude started in " ++ projectName ++
             (match initialPrompt with
              | some p => " with prompt: \"" ++ p ++ "\""
              | none => "")
           pid := some pid })

/-- The exit and error listeners: remove the bookkeeping entry. -/
def processExited (procs : SpawnerMap) (projectName : String) : SpawnerMap :=
  procs.filter (fun p => !(p.1 == projectName))

/-- killClaude: fail when no entry exists, otherwise remove it. -/
def killClaude (procs : SpawnerMap) (projectName : String) :
    SpawnerMap × SpawnResult :=
  match List.lookup projectName procs with
  | none =>
    (procs,
     { success := false
       message := "No active Claude process found for " ++ projectName
       pid := none })
  | some _ =>
    (processExited procs projectName,
     { success := true
       message := "✅ Claude process terminated in " ++ projectName
       pid := none })

/-! Message router (bridge main module) -/

/-- A message in the generic inbox, optionally targeted at a session. -/
structure QueuedMessage where
  from_ : String
  message : String
  timestamp : Nat
  read : Bool
  sessionId : Option String
deriving DecidableEq

/-- Character class of the routing-target pattern: ASCII letters,
digits, hyphen, underscore. -/
def isTargetChar (c : Char) : Bool :=
  c.isAlpha || c.isDigit || c == '-' || c == '_'

/-- ASCII members of the JavaScript whitespace class. -/
def isJsSpace (c : Char) : Bool :=
  c == ' ' || c == '\t' || c == '\n' || c == '\r' || c == '\x0b' || c == '\x0c'

/-- ASCII line terminators, which the dot of the pattern never matches. -/
def isLineTerm (c : Char) : Bool :=
  c == '\n' || c == '\r'

/-- Lowercasing for the case-insensitive session match (ASCII scope). -/
def lowerStr (s : String) : String :=
  String.mk (s.toList.map Char.toLower)

/-- The prefixed-message pattern: an anchored identifier run, a colon,
greedy whitespace, then at least one dot-matched character.  When the
whole remainder after the colon is whitespace, the greedy whitespace
run backtracks so that the final payload group can still match a
non-terminator whitespace character. -/
def matchTarget (message : String) : Option (String × String) :=
  let cs := message.toList
  let ident := cs.takeWhile isTargetChar
  if ident.isEmpty then none
  else
    match cs.drop ident.length with
    | ':' :: afterColon =>
      let ws := afterColon.takeWhile isJsSpace
      match afterColon.drop ws.length with
      | c :: tail =>
        some (String.mk ident, String.mk ((c :: tail).takeWhile (fun d => !isLineTerm d)))
      | [] =>
        match ws.reverse.dropWhile isLineTerm with
        | c :: _ => some (String.mk ident, String.mk [c])
        | [] => none
    | _ => none

/-- The one action produced for an inbound text message. -/
inductive RouteOutcome
  | answered (questionId answer : String)
  | delivered (sessionId : String)
  | autoSpawned (projectName : String)
  | spawnFailedQueued (projectName : String)
  | queuedOffline (projectName : String)
  | queuedUnregistered (projectName : String)
  | autoRouted (sessionId : String)
  | inbox
deriving DecidableEq

/-- The mutable module state of the bridge that the text handler and
the HTTP endpoints share.  pendingQuestions keeps question ids in
insertion order; the Project Directory content rides along as the
projects field. -/
structure BridgeState where
  activeSessions : SessionMap
  messageQueue : List QueuedMessage
  pendingQuestions : List String
  lastMessageSession : Option String
  procs : SpawnerMap
  queues : QueueStore
  projects : List Project
deriving DecidableEq

/-- The dead-route tail of the prefixed branch: consult the directory;
auto-spawn with the payload as initial prompt when permitted, queueing
the payload when the spawn fails; otherwise queue the payload as an
offline or unregistered task. -/
def routeDead (st : BridgeState) (targetProject actualMessage from_ : String)
    (now : Nat) (spawnError : Option String) (pid : Nat) (rand : String) :
    BridgeState × RouteOutcome :=
  match findProject st.projects targetProject with
  | some project =>
    if project.autoSpawn then
      let spawned := spawnClaude st.projects st.procs project.name
        (some actualMessage) spawnError pid now
      if spawned.2.success then
        ({ st with procs := spawned.1 }, RouteOutcome.autoSpawned project.name)
      else
        let enq := enqueueTask st.queues
          { projectName := targetProject
            projectPath := project.path
            message := actualMessage
            from_ := from_
            timestamp := now
            priority := TaskPriority.normal } now rand
        ({ st with procs := spawned.1, queues := enq.1 },
         RouteOutcome.spawnFailedQueued targetProject)
    else
      let enq := enqueueTask st.queues
        { projectName := targetProject
          projectPath := project.path
          message := actualMessage
          from_ := from_
          timestamp := now
          priority := TaskPriority.normal } now rand
      ({ st with queues := enq.1 }, RouteOutcome.queuedOffline targetProject)
  | none =>
    let enq := enqueueTask st.queues
      { projectName := targetProject
        projectPath := "/unknown"
        message := actualMessage
        from_ := from_
        timestamp := now
        priority := TaskPriority.normal } now rand
    ({ st with queues := enq.1 }, RouteOutcome.queuedUnregistered targetProject)

/-- The text handler.  First a pending question consumes the message;
then a prefixed message is routed: live delivery when a matching
session exists and the supervisor confirms the process, otherwise the
stale session is deleted and the dead route runs; an unprefixed
message auto-routes to the last message session when that session is
still registered, else lands in the generic inbox. -/
def handleText (st : BridgeState) (from_ msg : String) (now : Nat)
    (spawnError : Option String) (pid : Nat) (rand : String) :
    BridgeState × RouteOutcome :=
  match st.pendingQuestions with
  | questionId :: restQuestions =>
    ({ st with pendingQuestions := restQuestions },
     RouteOutcome.answered questionId msg)
  | [] =>
    match matchTarget msg with
    | some (targetProject, actualMessage) =>
      let sessionOpt := (st.activeSessions.map Prod.snd).find?
        (fun s => lowerStr s.projectName == lowerStr targetProject)
      let claudeActuallyRunning := isClaudeRunning st.procs targetProject
      match sessionOpt with
      | some activeSession =>
        if claudeActuallyRunning then
          ({ st with messageQueue := st.messageQueue ++
              [{ from_ := from_
                 message := actualMessage
                 timestamp := now
                 read := false
                 sessionId := some activeSession.id }] },
           RouteOutcome.delivered activeSession.id)
        else
          let st1 := { st with activeSessions :=
            st.activeSessions.filter (fun p => !(p.1 == activeSession.id)) }
          routeDead st1 targetProject actualMessage from_ now spawnError pid rand
      | none =>
        routeDead st targetProject actualMessage from_ now spawnError pid rand
    | none =>
      match st.lastMessageSession with
      | some sid =>
        match List.lookup sid st.activeSessions with
        | some _ =>
          ({ st with messageQueue := st.messageQueue ++
              [{ from_ := from_
                 message := msg
                 timestamp := now
                 read := false
                 sessionId := some sid }] },
           RouteOutcome.autoRouted sid)
        | none =>
          ({ st with messageQueue := st.messageQueue ++
              [{ from_ := from_
                 message := msg
                 timestamp := now
                 read := false
                 sessionId := none }] },
           RouteOutcome.inbox)
      | none =>
        ({ st with messageQueue := st.messageQueue ++
            [{ from_ := from_
               message := msg
               timestamp := now
               read := false
               sessionId := none }] },
         RouteOutcome.inbox)

/-- Outcome of the notification endpoint. -/
inductive NotifyResult
  | disabled
  | noChatId
  | noMessage
  | sent (text : String)
deriving DecidableEq

def emojiFor (priority : String) : String :=
  if priority = "info" then "ℹ️"
  else if priority = "success" then "✅"
  else if priority = "warning" then "⚠️"
  else if priority = "error" then "❌"
  else if priority = "question" then "❓"
  else "ℹ️"

/-- The notification endpoint.  When a session id is supplied and
registered, the session activity is refreshed and that session is
recorded as the last message session; this is the only write to the
last message session bookkeeping. -/
def postNotify (st : BridgeState) (enabled : Bool) (chatId : Option String)
    (message priority : String) (sessionId : Option String) (now : Nat) :
    BridgeState × NotifyResult :=
  if !enabled then (st, NotifyResult.disabled)
  else
    match chatId with
    | none => (st, NotifyResult.noChatId)
    | some _ =>
      if message = "" then (st, NotifyResult.noMessage)
      else
        match sessionId with
        | some sid =>
          match List.lookup sid st.activeSessions with
          | some s =>
            ({ st with
                activeSessions := st.activeSessions.map (fun p =>
                  if p.1 == sid then (p.1, { p.2 with lastActivity := now }) else p)
                lastMessageSession := some sid },
             NotifyResult.sent
               ("📁 *" ++ s.projectName ++ "* [#" ++ String.mk (sid.toList.take 7) ++ "]\n" ++
                emojiFor priority ++ " " ++ message))
          | none =>
            (st, NotifyResult.sent (emojiFor priority ++ " " ++ message))
        | none =>
          (st, NotifyResult.sent (emojiFor priority ++ " " ++ message))

/-! Pending-question registry (ask endpoint and answer path) -/

/-- The pending-question registry together with the settlement of each
ask call: pending ids in insertion order, and for every finished
question the answer text or the timeout error it settled with.  A
promise settles at most once. -/
inductive AskOutcome
  | answered (text : String)
  | timedOut (error : String)
deriving DecidableEq

structure AskSystem where
  pending : List String
  results : List (String × AskOutcome)
deriving DecidableEq

/-- Settle a promise: a second settlement of the same id is ignored. -/
def settle (results : List (String × AskOutcome)) (questionId : String)
    (r : AskOutcome) : List (String × AskOutcome) :=
  if (List.lookup questionId results).isSome then results
  else results ++ [(questionId, r)]

/-- The ask endpoint registers a resolver under a fresh question id. -/
def askQuestion (sys : AskSystem) (questionId : String) : AskSystem :=
  { sys with pending := sys.pending ++ [questionId] }

/-- The answer path of the text handler: the first pending entry is
removed, its timer cleared, and its promise resolved with the message. -/
def answerArrives (sys : AskSystem) (message : String) : AskSystem :=
  match sys.pending with
  | [] => sys
  | questionId :: rest =>
    { pending := rest
      results := settle sys.results questionId (AskOutcome.answered message) }

/-- The timeout timer of a question: when the entry is still pending
the entry is deleted and the promise rejected; a cleared timer (entry
already gone) has no effect. -/
def timerFires (sys : AskSystem) (questionId : String) : AskSystem :=
  if questionId ∈ sys.pending then
    { pending := sys.pending.erase questionId
      results := settle sys.results questionId (AskOutcome.timedOut "Timeout waiting for answer") }
  else sys

/-! Generic inbox mark-read endpoint -/

def countUnread (queue : List QueuedMessage) : Nat :=
  (queue.filter (fun m => !m.read)).length

/-- The requested count, where an omitted or zero count falls back to
the number of currently unread messages. -/
def resolveToMark (queue : List QueuedMessage) (count : Option Nat) : Nat :=
  match count with
  | some n => if n = 0 then countUnread queue else n
  | none => countUnread queue

/-- The marking loop: walk the queue in order, flipping unread
messages to read while fewer than toMark have been marked. -/
def markLoop : List QueuedMessage → Nat → Nat → List QueuedMessage × Nat
  | [], _, marked => ([], marked)
  | m :: rest, toMark, marked =>
    if m.read = false ∧ marked < toMark then
      let r := markLoop rest toMark (marked + 1)
      ({ m with read := true } :: r.1, r.2)
    else
      let r := markLoop rest toMark marked
      (m :: r.1, r.2)

/-- The mark-read endpoint: returns the rewritten queue and the number
of messages marked. -/
def markMessagesRead (queue : List QueuedMessage) (count : Option Nat) :
    List QueuedMessage × Nat :=
  markLoop queue (resolveToMark queue count) 0

/-! Concrete states used by witnesses and counterexamples -/

def projects0 : List Project :=
  [{ name := "Beta", path := "/b", autoSpawn := true },
   { name := "Off", path := "/o", autoSpawn := false }]

def sessionA : ClaudeSession :=
  { id := "sess1"
    projectName := "Beta"
    projectPath := "/b"
    startTime := 0
    lastActivity := 0
    status := SessionStatus.active }

def procBeta : SpawnedProcessEntry :=
  { projectName := "Beta", pid := 42, startTime := 0, initialPrompt := none }

/-- A bridge state with a registered session for Beta but no live
process for it. -/
def stStale : BridgeState :=
  { activeSessions := [("sess1", sessionA)]
    messageQueue := []
    pendingQuestions := []
    lastMessageSession := none
    procs := []
    queues := []
    projects := projects0 }

/-- A bridge state with a live Beta session, a running Beta process and
one pending question. -/
def stAsked : BridgeState :=
  { activeSessions := [("sess1", sessionA)]
    messageQueue := []
    pendingQuestions := ["q1"]
    lastMessageSession := none
    procs := [("Beta", procBeta)]
    queues := []
    projects := projects0 }

/-- A bridge state with a live Beta session and a running Beta process,
no pending question, and no last message session recorded. -/
def stLive : BridgeState :=
  { activeSessions := [("sess1", sessionA)]
    messageQueue := []
    pendingQuestions := []
    lastMessageSession := none
    procs := [("Beta", procBeta)]
    queues := []
    projects := projects0 }

/-- The queue store after enqueueing one task for the project my_app,
whose name contains an underscore. -/
def storeUnderscore : QueueStore :=
  (enqueueTask []
    { projectName := "my_app"
      projectPath := "/p"
      message := "hello"
      from_ := "alice"
      timestamp := 0
      priority := TaskPriority.normal } 7 "abc").1

/-- A delivered task older than any positive cutoff. -/
def taskOldDelivered : QueuedTask :=
  { id := "1-a", projectName := "Foo", projectPath := "/f", message := "m1"
    from_ := "u", timestamp := 0, priority := TaskPriority.normal
    status := TaskStatus.delivered }

/-- A pending task older than any positive cutoff. -/
def taskOldPending : QueuedTask :=
  { id := "2-b", projectName := "Foo", projectPath := "/f", message := "m2"
    from_ := "u", timestamp := 0, priority := TaskPriority.normal
    status := TaskStatus.pending }

def storeFoo : QueueStore := [("foo", [taskOldDelivered, taskOldPending])]

def sessionOld : ClaudeSession :=
  { id := "old1", projectName := "P1", projectPath := "/1"
    startTime := 0, lastActivity := 0, status := SessionStatus.idle }

def sessionNew : ClaudeSession :=
  { id := "new1", projectName := "P2", projectPath := "/2"
    startTime := 0, lastActivity := 1800000, status := SessionStatus.active }

/-- One expired session and one fresh one, against now = 31 minutes. -/
def sessionsSweep : SessionMap := [("old1", sessionOld), ("new1", sessionNew)]

def sysAsk : AskSystem := { pending := ["q1", "q2"], results := [] }

def msgsInbox : List QueuedMessage :=
  [{ from_ := "u", message := "a", timestamp := 0, read := true, sessionId := none },
   { from_ := "u", message := "b", timestamp := 1, read := false, sessionId := none },
   { from_ := "u", message := "c", timestamp := 2, read := false, sessionId := some "s" }]

end InnerVoice

namespace InnerVoice

/-! Association-list helper lemmas -/

theorem lookup_append_of_none {β : Type} (k : String) (l1 l2 : List (String × β))
    (h : List.lookup k l1 = none) :
    List.lookup k (l1 ++ l2) = List.lookup k l2 := by
  induction l1 with
  | nil => simp
  | cons a rest ih =>
    obtain ⟨ka, va⟩ := a
    rw [List.cons_append, List.lookup_cons] at *
    cases hk : (k == ka) with
    | true => simp [hk] at h
    | false => simp only [hk] at h ⊢; exact ih h

theorem lookup_append_of_some {β : Type} (k : String) (l1 l2 : List (String × β)) (v : β)
    (h : List.lookup k l1 = some v) :
    List.lookup k (l1 ++ l2) = some v := by
  induction l1 with
  | nil => simp at h
  | cons a rest ih =>
    obtain ⟨ka, va⟩ := a
    rw [List.cons_append, List.lookup_cons] at *
    cases hk : (k == ka) with
    | true => simpa [hk] using h
    | false => simp only [hk] at h ⊢; exact ih h

theorem lookup_map_modify {β : Type} (k : String) (f : β → β) (l : List (String × β)) :
    List.lookup k (l.map (fun p => if p.1 == k then (p.1, f p.2) else p)) =
      (List.lookup k l).map f := by
  induction l with
  | nil => simp
  | cons a rest ih =>
    obtain ⟨ka, va⟩ := a
    simp only [List.map_cons]
    by_cases hk : ka = k
    · have h1 : (ka == k) = true := by simp [hk]
      have h2 : (k == ka) = true := by simp [hk]
      simp only [h1, eq_self_iff_true, if_true, List.lookup_cons, h2]
      rfl
    · have h1 : (ka == k) = false := by simp [hk]
      have h2 : (k == ka) = false := by simp [Ne.symm hk]
      simp only [h1, Bool.false_eq_true, if_false, List.lookup_cons, h2]
      exact ih

theorem lookup_map_modify_ne {β : Type} (k k2 : String) (f : β → β) (l : List (String × β))
    (h : k2 ≠ k) :
    List.lookup k2 (l.map (fun p => if p.1 == k then (p.1, f p.2) else p)) =
      List.lookup k2 l := by
  induction l with
  | nil => simp
  | cons a rest ih =>
    obtain ⟨ka, va⟩ := a
    simp only [List.map_cons]
    by_cases hk : ka = k
    · have h1 : (ka == k) = true := by simp [hk]
      have h2 : (k2 == ka) = false := by simp [hk ▸ h]
      simp only [h1, eq_self_iff_true, if_true, List.lookup_cons, h2]
      exact ih
    · have h1 : (ka == k) = false := by simp [hk]
      simp only [h1, Bool.false_eq_true, if_false, List.lookup_cons]
      cases hq : (k2 == ka) with
      | true => rfl
      | false => exact ih

theorem lookup_filter_out {β : Type} (k : String) (l : List (String × β)) :
    List.lookup k (l.filter (fun p => !(p.1 == k))) = none := by
  induction l with
  | nil => simp
  | cons a rest ih =>
    obtain ⟨ka, va⟩ := a
    by_cases hk : ka = k
    · have h1 : (ka == k) = true := by simp [hk]
      simpa [List.filter_cons, h1] using ih
    · have h1 : (ka == k) = false := by simp [hk]
      have h2 : (k == ka) = false := by simp [Ne.symm hk]
      simp only [List.filter_cons, h1, Bool.not_false, if_true, List.lookup_cons, h2]
      exact ih

theorem length_filter_not_add {α : Type} (p : α → Bool) (l : List α) :
    (l.filter p).length + (l.filter (fun a => !(p a))).length = l.length := by
  induction l with
  | nil => simp
  | cons a rest ih =>
    cases h : p a <;> simp [List.filter_cons, h] <;> omega

theorem loadQueue_saveQueue (store : QueueStore) (pn : String) (tasks : List QueuedTask) :
    loadQueue (saveQueue store pn tasks) pn = tasks := by
  unfold loadQueue saveQueue
  cases h : List.lookup (getQueueKey pn) store with
  | some v =>
    simp only [h, Option.isSome_some, if_true]
    rw [lookup_map_modify (f := fun _ => tasks)]
    simp [h]
  | none =>
    simp only [h, Option.isSome_none, Bool.false_eq_true, if_false]
    rw [lookup_append_of_none _ _ _ h]
    simp [List.lookup_cons]

end InnerVoice

namespace InnerVoice

theorem removeB_eq_decide (cutoff : Nat) (t : QueuedTask) :
    (t.status == TaskStatus.delivered && decide (t.timestamp < cutoff)) =
      decide (t.status = TaskStatus.delivered ∧ t.timestamp < cutoff) := by
  by_cases h1 : t.status = TaskStatus.delivered <;>
    by_cases h2 : t.timestamp < cutoff <;> simp [h1, h2]

theorem cleanup_count (store : QueueStore) (projectName : String) (now daysOld : Nat) :
    (cleanupOldTasks store projectName now daysOld).2 =
      ((loadQueue store projectName).filter (fun t =>
        (t.status == TaskStatus.delivered &&
          decide (t.timestamp < now - daysOld * msPerDay)))).length := by
  show (loadQueue store projectName).length - ((loadQueue store projectName).filter _).length = _
  have := length_filter_not_add
    (fun t : QueuedTask => (t.status == TaskStatus.delivered &&
      decide (t.timestamp < now - daysOld * msPerDay)))
    (loadQueue store projectName)
  omega

theorem cleanup_load (store : QueueStore) (projectName : String) (now daysOld : Nat) :
    loadQueue (cleanupOldTasks store projectName now daysOld).1 projectName =
      (loadQueue store projectName).filter (fun t =>
        !(t.status == TaskStatus.delivered &&
          decide (t.timestamp < now - daysOld * msPerDay))) := by
  by_cases hrem : (loadQueue store projectName).length -
      ((loadQueue store projectName).filter (fun t =>
        !(t.status == TaskStatus.delivered &&
          decide (t.timestamp < now - daysOld * msPerDay)))).length > 0
  · show loadQueue (if _ > 0 then _ else store) projectName = _
    rw [if_pos hrem]
    exact loadQueue_saveQueue store projectName _
  · show loadQueue (if _ > 0 then _ else store) projectName = _
    rw [if_neg hrem]
    have hle : ((loadQueue store projectName).filter (fun t =>
        !(t.status == TaskStatus.delivered &&
          decide (t.timestamp < now - daysOld * msPerDay)))).length ≤
        (loadQueue store projectName).length :=
      (loadQueue store projectName).length_filter_le _
    have heq : ((loadQueue store projectName).filter (fun t =>
        !(t.status == TaskStatus.delivered &&
          decide (t.timestamp < now - daysOld * msPerDay)))).length =
        (loadQueue store projectName).length := by omega
    exact ((List.filter_sublist (loadQueue store projectName)).eq_of_length heq).symm

/-- C8: cleanupOldTasks removes exactly the delivered tasks strictly older
than the cutoff (now minus maxAgeDays days), returns the number removed,
and never removes a pending or expired task regardless of age. -/
theorem cleanupOldTasks_removes_exactly_old_delivered
    (store : QueueStore) (projectName : String) (now daysOld : Nat) :
    (∀ t, t ∈ loadQueue (cleanupOldTasks store projectName now daysOld).1 projectName ↔
       (t ∈ loadQueue store projectName ∧
        ¬(t.status = TaskStatus.delivered ∧ t.timestamp < now - daysOld * msPerDay)))
    ∧ (cleanupOldTasks store projectName now daysOld).2 =
        ((loadQueue store projectName).filter
          (fun t => decide (t.status = TaskStatus.delivered ∧
            t.timestamp < now - daysOld * msPerDay))).length
    ∧ (∀ t ∈ loadQueue store projectName,
        t.status = TaskStatus.pending ∨ t.status = TaskStatus.expired →
          t ∈ loadQueue (cleanupOldTasks store projectName now daysOld).1 projectName) := by
  have hkeep : ∀ t : QueuedTask,
      (!(t.status == TaskStatus.delivered &&
        decide (t.timestamp < now - daysOld * msPerDay))) = true ↔
        ¬(t.status = TaskStatus.delivered ∧ t.timestamp < now - daysOld * msPerDay) := by
    intro t
    by_cases h1 : t.status = TaskStatus.delivered <;>
      by_cases h2 : t.timestamp < now - daysOld * msPerDay <;> simp [h1, h2]
  refine ⟨?_, ?_, ?_⟩
  · intro t
    rw [cleanup_load, List.mem_filter]
    exact and_congr_right (fun _ => hkeep t)
  · rw [cleanup_count]
    congr 1
    exact List.filter_congr (fun t _ => removeB_eq_decide (now - daysOld * msPerDay) t)
  · intro t hmem hstat
    rw [cleanup_load, List.mem_filter]
    refine ⟨hmem, (hkeep t).mpr ?_⟩
    rintro ⟨hd, _⟩
    rcases hstat with h | h <;> rw [h] at hd <;> exact TaskStatus.noConfusion hd

/-- C8 witness: in a queue holding an old delivered task and an old
pending task, cleanup with maxAgeDays zero removes exactly the delivered
one and keeps the pending one. -/
theorem cleanupOldTasks_removes_exactly_old_delivered_witness :
    taskOldPending ∈ loadQueue (cleanupOldTasks storeFoo "Foo" 10 0).1 "Foo"
    ∧ (cleanupOldTasks storeFoo "Foo" 10 0).2 = 1 :=
  ⟨(cleanupOldTasks_removes_exactly_old_delivered storeFoo "Foo" 10 0).2.2
      taskOldPending (by decide) (Or.inl (by decide)),
   ((cleanupOldTasks_removes_exactly_old_delivered storeFoo "Foo" 10 0).2.1).trans (by decide)⟩

/-- C5: failing input for the summary claim.  After enqueueing a single
task for the project my_app (a name containing an underscore), that task
is pending in the store, yet getQueueSummary is empty: the stored key
my_app is listed back as my-app, whose queue file does not exist, so the
project is read with total zero and filtered out of the summary. -/
theorem getQueueSummary_drops_underscore_project :
    (getPendingTasks storeUnderscore "my_app").length = 1
    ∧ getQueueSummary storeUnderscore = [] := by
  constructor
  · decide
  · decide

end InnerVoice

namespace InnerVoice

/-- C7: after a sweep at time now, every session whose idle time strictly
exceeds the 30-minute TTL is gone from the registry and from the session
listing, every session whose idle time does not exceed the TTL is still
present with its record unchanged, and before the sweep an expired
session is still listed. -/
theorem session_ttl_sweep (sessions : SessionMap) (now : Nat) (id : String)
    (s : ClaudeSession) (hmem : (id, s) ∈ sessions) :
    (((now : Int) - s.lastActivity > (SESSION_TIMEOUT : Int)) →
       (∀ p ∈ sweepExpiredSessions sessions now, p ≠ (id, s))
       ∧ (∀ snap ∈ listSessions (sweepExpiredSessions sessions now) now,
            ¬((now : Int) - snap.lastActivity > (SESSION_TIMEOUT : Int))))
    ∧ (¬((now : Int) - s.lastActivity > (SESSION_TIMEOUT : Int)) →
       (id, s) ∈ sweepExpiredSessions sessions now
       ∧ snapshotOf now s ∈ listSessions (sweepExpiredSessions sessions now) now)
    ∧ snapshotOf now s ∈ listSessions sessions now := by
  refine ⟨?_, ?_, ?_⟩
  · intro hexp
    constructor
    · intro p hp hcontra
      subst hcontra
      have := (List.mem_filter.mp hp).2
      simp only [Bool.not_eq_true', decide_eq_false_iff_not] at this
      exact this hexp
    · intro snap hsnap
      obtain ⟨q, hq, hqeq⟩ := List.mem_map.mp hsnap
      have := (List.mem_filter.mp hq).2
      simp only [Bool.not_eq_true', decide_eq_false_iff_not] at this
      rw [← hqeq]
      simpa [snapshotOf] using this
  · intro hfresh
    have hmem2 : (id, s) ∈ sweepExpiredSessions sessions now := by
      refine List.mem_filter.mpr ⟨hmem, ?_⟩
      simp only [Bool.not_eq_true', decide_eq_false_iff_not]
      exact hfresh
    exact ⟨hmem2, List.mem_map.mpr ⟨(id, s), hmem2, rfl⟩⟩
  · exact List.mem_map.mpr ⟨(id, s), hmem, rfl⟩

/-- C7 witness: at 31 minutes, the sweep keeps the fresh session and no
remaining entry is the expired one. -/
theorem session_ttl_sweep_witness :
    ("new1", sessionNew) ∈ sweepExpiredSessions sessionsSweep 1860001
    ∧ (∀ p ∈ sweepExpiredSessions sessionsSweep 1860001, p ≠ ("old1", sessionOld)) :=
  ⟨((session_ttl_sweep sessionsSweep 1860001 "new1" sessionNew (by decide)).2.1
      (by decide)).1,
   ((session_ttl_sweep sessionsSweep 1860001 "old1" sessionOld (by decide)).1
      (by decide)).1⟩

/-- C9: session registration is idempotent.  When the session id exists,
the call refreshes lastActivity and status and leaves the project
binding and start time untouched (even for different project arguments),
without touching other sessions; when it does not exist, a fresh active
session is appended with startTime and lastActivity both now. -/
theorem registerSession_idempotent (sessions : SessionMap) (sid pn pp : String)
    (now : Nat) (h1 : sid ≠ "") (h2 : pn ≠ "") (h3 : pp ≠ "") :
    (∀ s, List.lookup sid sessions = some s →
       List.lookup sid (registerSession sessions sid pn pp now).1 =
         some { s with lastActivity := now, status := SessionStatus.active }
       ∧ (∀ k, k ≠ sid → List.lookup k (registerSession sessions sid pn pp now).1 =
           List.lookup k sessions)
       ∧ (registerSession sessions sid pn pp now).2 = RegisterResult.ok sid pn)
    ∧ (List.lookup sid sessions = none →
       (registerSession sessions sid pn pp now).1 =
         sessions ++ [(sid,
           { id := sid
             projectName := pn
             projectPath := pp
             startTime := now
             lastActivity := now
             status := SessionStatus.active })]
       ∧ (registerSession sessions sid pn pp now).2 = RegisterResult.ok sid pn) := by
  have hcond : ¬(sid = "" ∨ pn = "" ∨ pp = "") := by
    rintro (h | h | h) <;> [exact h1 h; exact h2 h; exact h3 h]
  constructor
  · intro s hlk
    unfold registerSession
    rw [if_neg hcond]
    simp only [hlk]
    refine ⟨?_, ?_, trivial⟩
    · rw [lookup_map_modify
        (f := fun r : ClaudeSession =>
          { r with lastActivity := now, status := SessionStatus.active })]
      rw [hlk]
      rfl
    · intro k hk
      exact lookup_map_modify_ne sid k
        (fun r : ClaudeSession =>
          { r with lastActivity := now, status := SessionStatus.active })
        sessions hk
  · intro hlk
    unfold registerSession
    rw [if_neg hcond]
    simp only [hlk]
    exact ⟨trivial, trivial⟩

/-- C9 witness: re-registering sess1 under a different project name only
refreshes activity and status. -/
theorem registerSession_idempotent_witness :
    List.lookup "sess1" (registerSession [("sess1", sessionA)] "sess1" "Other" "/x" 99).1 =
      some { sessionA with lastActivity := 99, status := SessionStatus.active } :=
  ((registerSession_idempotent [("sess1", sessionA)] "sess1" "Other" "/x" 99
      (by decide) (by decide) (by decide)).1 sessionA (by decide)).1

/-- C2: a spawn call made while a bookkeeping entry for the name exists
returns a failure, creates no second process and modifies nothing, and
isClaudeRunning stays true. -/
theorem spawnClaude_second_call_rejected (projects : List Project) (procs : SpawnerMap)
    (name : String) (prompt : Option String) (spawnError : Option String) (pid now : Nat)
    (h : isClaudeRunning procs name = true) :
    spawnClaude projects procs name prompt spawnError pid now =
      (procs, { success := false
                message := "Claude is already running in " ++ name
                pid := none })
    ∧ isClaudeRunning (spawnClaude projects procs name prompt spawnError pid now).1 name
        = true := by
  have hb : (List.lookup name procs).isSome = true := h
  constructor
  · unfold spawnClaude
    rw [if_pos hb]
  · unfold spawnClaude
    rw [if_pos hb]
    exact h

/-- C2 witness: with Beta already running, a second spawn is rejected and
Beta stays running. -/
theorem spawnClaude_second_call_rejected_witness :
    spawnClaude projects0 [("Beta", procBeta)] "Beta" none none 5 9 =
      ([("Beta", procBeta)],
       { success := false
         message := "Claude is already running in " ++ "Beta"
         pid := none })
    ∧ isClaudeRunning (spawnClaude projects0 [("Beta", procBeta)] "Beta" none none 5 9).1
        "Beta" = true :=
  spawnClaude_second_call_rejected projects0 [("Beta", procBeta)] "Beta" none none 5 9
    (by decide)

end InnerVoice

namespace InnerVoice

/-- C6: a question that times out fails with the timeout error and its
entry is removed, so later messages are not consumed as its answer; a
question answered first resolves with the answer text, its entry is
removed, and its cancelled timer has no further effect.  Either way the
question settles exactly once. -/
theorem question_timeout_or_answer (sys : AskSystem) (qid msg msg2 : String)
    (hnodup : sys.pending.Nodup)
    (hunsettled : List.lookup qid sys.results = none) :
    (qid ∈ sys.pending →
       qid ∉ (timerFires sys qid).pending
       ∧ List.lookup qid (timerFires sys qid).results =
           some (AskOutcome.timedOut "Timeout waiting for answer")
       ∧ List.lookup qid (answerArrives (timerFires sys qid) msg2).results =
           some (AskOutcome.timedOut "Timeout waiting for answer"))
    ∧ (∀ rest, sys.pending = qid :: rest →
       (answerArrives sys msg).pending = rest
       ∧ qid ∉ (answerArrives sys msg).pending
       ∧ List.lookup qid (answerArrives sys msg).results =
           some (AskOutcome.answered msg)
       ∧ timerFires (answerArrives sys msg) qid = answerArrives sys msg) := by
  have hsettle : ∀ r, List.lookup qid (settle sys.results qid r) = some r := by
    intro r
    unfold settle
    rw [hunsettled]
    simp only [Option.isSome_none, Bool.false_eq_true, if_false]
    rw [lookup_append_of_none qid sys.results _ hunsettled]
    simp [List.lookup_cons]
  constructor
  · intro hq
    have ht : timerFires sys qid =
        { pending := sys.pending.erase qid
          results := settle sys.results qid
            (AskOutcome.timedOut "Timeout waiting for answer") } := by
      unfold timerFires
      rw [if_pos hq]
    have hout : qid ∉ (timerFires sys qid).pending := by
      rw [ht]
      exact hnodup.not_mem_erase
    have hres : List.lookup qid (timerFires sys qid).results =
        some (AskOutcome.timedOut "Timeout waiting for answer") := by
      rw [ht]
      exact hsettle _
    refine ⟨hout, hres, ?_⟩
    unfold answerArrives
    cases hpend : (timerFires sys qid).pending with
    | nil => exact hres
    | cons q2 r2 =>
      have hq2 : q2 ≠ qid := by
        intro hcontra
        apply hout
        rw [hpend, hcontra]
        exact List.mem_cons_self _ _
      show List.lookup qid (settle (timerFires sys qid).results q2 _) = _
      unfold settle
      by_cases hs : (List.lookup q2 (timerFires sys qid).results).isSome = true
      · rw [if_pos hs]
        exact hres
      · rw [if_neg hs]
        exact lookup_append_of_some qid _ _ _ hres
  · intro rest hp
    have hnd : qid ∉ rest := by
      rw [hp] at hnodup
      exact (List.nodup_cons.mp hnodup).1
    have ha : answerArrives sys msg =
        { pending := rest
          results := settle sys.results qid (AskOutcome.answered msg) } := by
      unfold answerArrives
      rw [hp]
    refine ⟨by rw [ha], by rw [ha]; exact hnd, by rw [ha]; exact hsettle _, ?_⟩
    unfold timerFires
    rw [ha]
    simp only []
    rw [if_neg hnd]

/-- C6 witness: with questions q1 then q2 outstanding, q1 times out to
the timeout error, and in the alternative run q1 resolves with the
answer text. -/
theorem question_timeout_or_answer_witness :
    List.lookup "q1" (timerFires sysAsk "q1").results =
      some (AskOutcome.timedOut "Timeout waiting for answer")
    ∧ List.lookup "q1" (answerArrives sysAsk "yes").results =
      some (AskOutcome.answered "yes") :=
  ⟨((question_timeout_or_answer sysAsk "q1" "yes" "zz" (by decide) (by decide)).1
      (by decide)).2.1,
   ((question_timeout_or_answer sysAsk "q1" "yes" "zz" (by decide) (by decide)).2
      ["q2"] (by decide)).2.2.1⟩

end InnerVoice

namespace InnerVoice

theorem qm_read_update_self (e : QueuedMessage) : { e with read := e.read } = e := by
  cases e
  rfl

theorem markLoop_length (q : List QueuedMessage) (t m : Nat) :
    (markLoop q t m).1.length = q.length := by
  induction q generalizing m with
  | nil => rfl
  | cons e rest ih =>
    simp only [markLoop]
    by_cases h : e.read = false ∧ m < t
    · rw [if_pos h]
      simp [ih]
    · rw [if_neg h]
      simp [ih]

theorem markLoop_count (q : List QueuedMessage) (t m : Nat) :
    (markLoop q t m).2 = m + min (t - m) (countUnread q) := by
  induction q generalizing m with
  | nil => simp [markLoop, countUnread]
  | cons e rest ih =>
    simp only [markLoop]
    by_cases h : e.read = false ∧ m < t
    · rw [if_pos h]
      show (markLoop rest t (m + 1)).2 = _
      rw [ih (m + 1)]
      have hcu : countUnread (e :: rest) = countUnread rest + 1 := by
        simp [countUnread, h.1]
      rw [hcu]
      omega
    · rw [if_neg h]
      show (markLoop rest t m).2 = _
      rw [ih m]
      by_cases hr : e.read = true
      · have hcu : countUnread (e :: rest) = countUnread rest := by
          simp [countUnread, hr]
        rw [hcu]
      · have hr2 : e.read = false := by
          revert hr
          cases e.read <;> simp
        have hm : ¬ m < t := fun hm => h ⟨hr2, hm⟩
        have hcu : countUnread (e :: rest) = countUnread rest + 1 := by
          simp [countUnread, hr2]
        rw [hcu]
        omega

theorem markLoop_getq (q : List QueuedMessage) (t : Nat) :
    ∀ (m i : Nat),
    (markLoop q t m).1.get? i = (q.get? i).map
      (fun e => { e with read := e.read || decide (m + countUnread (q.take i) < t) }) := by
  induction q with
  | nil =>
    intro m i
    simp [markLoop]
  | cons e rest ih =>
    intro m i
    simp only [markLoop]
    by_cases h : e.read = false ∧ m < t
    · rw [if_pos h]
      cases i with
      | zero =>
        have hval : (e.read || decide (m + countUnread ((e :: rest).take 0) < t)) = true := by
          simp [h.1, h.2, countUnread]
        have hget : ((e :: rest).get? 0) = some e := List.get?_cons_zero
        rw [hget, Option.map_some', hval]
        rfl
      | succ j =>
        show (markLoop rest t (m + 1)).1.get? j = _
        rw [ih (m + 1) j, List.get?_cons_succ]
        have hcu : countUnread (List.take (j + 1) (e :: rest)) =
            countUnread (rest.take j) + 1 := by
          simp [countUnread, List.take_succ_cons, h.1]
        simp only [hcu]
        have hb : decide (m + 1 + countUnread (rest.take j) < t) =
            decide (m + (countUnread (rest.take j) + 1) < t) :=
          decide_eq_decide.mpr (by omega)
        simp only [hb]
    · rw [if_neg h]
      cases i with
      | zero =>
        show some e = _
        rw [List.get?_cons_zero, Option.map_some']
        have hval : (e.read || decide (m + countUnread ((e :: rest).take 0) < t)) = e.read := by
          by_cases hr : e.read = true
          · simp [hr]
          · have hr2 : e.read = false := by
              revert hr
              cases e.read <;> simp
            have hm : ¬ m < t := fun hm => h ⟨hr2, hm⟩
            simp [hr2, hm, countUnread]
        rw [hval, qm_read_update_self]
      | succ j =>
        show (markLoop rest t m).1.get? j = _
        rw [ih m j, List.get?_cons_succ]
        by_cases hr : e.read = true
        · have hcu : countUnread (List.take (j + 1) (e :: rest)) =
              countUnread (rest.take j) := by
            simp [countUnread, List.take_succ_cons, hr]
          simp only [hcu]
        · have hr2 : e.read = false := by
            revert hr
            cases e.read <;> simp
          have hm : ¬ m < t := fun hm => h ⟨hr2, hm⟩
          have hcu : countUnread (List.take (j + 1) (e :: rest)) =
              countUnread (rest.take j) + 1 := by
            simp [countUnread, List.take_succ_cons, hr2]
          simp only [hcu]
          have hb : decide (m + countUnread (rest.take j) < t) =
              decide (m + (countUnread (rest.take j) + 1) < t) :=
            decide_eq_decide.mpr (by omega)
          simp only [hb]

end InnerVoice

namespace InnerVoice

/-- C10: the mark-read endpoint marks exactly the minimum of the
requested count and the number of unread messages (all of them when the
count is omitted or zero), walking the queue oldest first; every message
keeps its fields, an already-read message stays read, and an unread
message becomes read exactly when its unread rank is below the requested
count.  The number marked is returned. -/
theorem messages_read_marks_min (queue : List QueuedMessage) (count : Option Nat) :
    (markMessagesRead queue count).2 =
      min (resolveToMark queue count) (countUnread queue)
    ∧ (markMessagesRead queue count).1.length = queue.length
    ∧ ∀ i : Nat, (markMessagesRead queue count).1.get? i = (queue.get? i).map
        (fun e => { e with read :=
            e.read || decide (countUnread (queue.take i) < resolveToMark queue count) }) := by
  refine ⟨?_, markLoop_length _ _ _, ?_⟩
  · show (markLoop queue (resolveToMark queue count) 0).2 = _
    rw [markLoop_count]
    omega
  · intro i
    show (markLoop queue (resolveToMark queue count) 0).1.get? i = _
    rw [markLoop_getq]
    have hb : decide (0 + countUnread (queue.take i) < resolveToMark queue count) =
        decide (countUnread (queue.take i) < resolveToMark queue count) :=
      decide_eq_decide.mpr (by omega)
    simp only [hb]

/-- C3 counterexample: with a question pending and project Beta fully
live (registered session and running process), the prefixed message is
consumed as the answer to the pending question instead of being routed;
nothing is delivered to the session inbox. -/
theorem prefixed_message_consumed_as_answer :
    matchTarget "Beta: hi" = some ("Beta", "hi")
    ∧ (handleText stAsked "user" "Beta: hi" 1000 none 5 "r").2 =
        RouteOutcome.answered "q1" "Beta: hi"
    ∧ (handleText stAsked "user" "Beta: hi" 1000 none 5 "r").1.messageQueue = [] :=
  ⟨by decide, by decide, by decide⟩

/-- C3 amended: whenever the pending-question registry is nonempty, the
next inbound text message is consumed as the answer to the oldest
pending entry, whether or not the message matches the routing prefix
pattern. -/
theorem oldest_pending_question_consumes_any_message
    (st : BridgeState) (from_ msg : String) (now : Nat) (spawnError : Option String)
    (pid : Nat) (rand : String) (qid : String) (restQ : List String)
    (h : st.pendingQuestions = qid :: restQ) :
    handleText st from_ msg now spawnError pid rand =
      ({ st with pendingQuestions := restQ }, RouteOutcome.answered qid msg) := by
  unfold handleText
  rw [h]

/-- C3 amended witness: a prefixed message answers the oldest pending
question in the concrete asked state. -/
theorem oldest_pending_question_consumes_any_message_witness :
    handleText stAsked "user" "Proj: go" 3 none 4 "r" =
      ({ stAsked with pendingQuestions := [] }, RouteOutcome.answered "q1" "Proj: go") :=
  oldest_pending_question_consumes_any_message stAsked "user" "Proj: go" 3 none 4 "r"
    "q1" [] (by decide)

theorem routeDead_activeSessions (st : BridgeState) (targetProject actualMessage from_ : String)
    (now : Nat) (spawnError : Option String) (pid : Nat) (rand : String) :
    (routeDead st targetProject actualMessage from_ now spawnError pid rand).1.activeSessions =
      st.activeSessions := by
  unfold routeDead
  dsimp only
  split
  · split
    · split
      · rfl
      · rfl
    · rfl
  · rfl

theorem routeDead_lastMessageSession (st : BridgeState)
    (targetProject actualMessage from_ : String)
    (now : Nat) (spawnError : Option String) (pid : Nat) (rand : String) :
    (routeDead st targetProject actualMessage from_ now spawnError pid rand).1.lastMessageSession =
      st.lastMessageSession := by
  unfold routeDead
  dsimp only
  split
  · split
    · split
      · rfl
      · rfl
    · rfl
  · rfl

/-- C4 counterexample: delivery of a prefixed message to the live Beta
session succeeds, yet the last message session bookkeeping stays
untouched, so the next unprefixed message is not auto-routed to Beta. -/
theorem delivery_does_not_update_last_session :
    (handleText stLive "user" "Beta: hello" 5 none 7 "r").2 =
      RouteOutcome.delivered "sess1"
    ∧ (handleText stLive "user" "Beta: hello" 5 none 7 "r").1.lastMessageSession = none
    ∧ (handleText
        (handleText stLive "user" "Beta: hello" 5 none 7 "r").1 "user" "and then" 6 none 7 "r2").2 =
      RouteOutcome.inbox :=
  ⟨by decide, by decide, by decide⟩

theorem postNotify_valid_session (st : BridgeState) (chatId message priority sid : String)
    (s : ClaudeSession) (now2 : Nat)
    (hlk : List.lookup sid st.activeSessions = some s) (hmsg : message ≠ "") :
    (postNotify st true (some chatId) message priority (some sid) now2).1 =
      { st with
        activeSessions := st.activeSessions.map (fun p =>
          if p.1 == sid then (p.1, { p.2 with lastActivity := now2 }) else p)
        lastMessageSession := some sid } := by
  unfold postNotify
  rw [if_neg (by decide : ¬((!true) = true))]
  show ((if message = "" then _ else _ : BridgeState × NotifyResult)).1 = _
  rw [if_neg hmsg]
  simp only [hlk]

/-- C4 amended: no routing outcome of the text handler updates the last
message session bookkeeping; it is updated only by the notify endpoint
when it carries the id of a registered session, and after such a notify
an unprefixed inbound message is auto-routed to that session. -/
theorem last_session_updated_only_by_notify
    (st : BridgeState) (from_ msg : String) (now : Nat) (spawnError : Option String)
    (pid : Nat) (rand : String) :
    (handleText st from_ msg now spawnError pid rand).1.lastMessageSession =
      st.lastMessageSession
    ∧ (∀ chatId message priority sid : String, ∀ s : ClaudeSession, ∀ now2 : Nat,
        List.lookup sid st.activeSessions = some s → message ≠ "" →
        (postNotify st true (some chatId) message priority (some sid) now2).1.lastMessageSession
            = some sid
        ∧ (∀ (from2 msg2 : String) (now3 : Nat) (se2 : Option String) (pid2 : Nat)
              (rand2 : String),
            st.pendingQuestions = [] → matchTarget msg2 = none →
            (handleText (postNotify st true (some chatId) message priority (some sid) now2).1
                from2 msg2 now3 se2 pid2 rand2).2 = RouteOutcome.autoRouted sid)) := by
  constructor
  · unfold handleText
    dsimp only
    split
    · rfl
    · split
      · split
        · split
          · rfl
          · exact routeDead_lastMessageSession _ _ _ _ _ _ _ _
        · exact routeDead_lastMessageSession _ _ _ _ _ _ _ _
      · split
        · split
          · rfl
          · rfl
        · rfl
  · intro chatId message priority sid s now2 hlk hmsg
    rw [postNotify_valid_session st chatId message priority sid s now2 hlk hmsg]
    refine ⟨rfl, ?_⟩
    intro from2 msg2 now3 se2 pid2 rand2 hpq hm2
    unfold handleText
    simp only [hpq, hm2]
    have hlk2 : List.lookup sid (st.activeSessions.map (fun p =>
        if p.1 == sid then (p.1, { p.2 with lastActivity := now2 }) else p)) =
        some { s with lastActivity := now2 } := by
      rw [lookup_map_modify sid (fun r : ClaudeSession => { r with lastActivity := now2 })
        st.activeSessions]
      rw [hlk]
      rfl
    simp only [hlk2]

/-- C4 amended witness: routing to the live session leaves the last
message session unchanged, notify with the session id sets it, and the
next unprefixed message is then auto-routed to it. -/
theorem last_session_updated_only_by_notify_witness :
    (handleText stLive "u" "hello" 6 none 8 "r").1.lastMessageSession =
      stLive.lastMessageSession
    ∧ (postNotify stLive true (some "c") "done" "info" (some "sess1") 10).1.lastMessageSession
        = some "sess1"
    ∧ (handleText (postNotify stLive true (some "c") "done" "info" (some "sess1") 10).1
        "u" "go on" 11 none 9 "r2").2 = RouteOutcome.autoRouted "sess1" :=
  ⟨(last_session_updated_only_by_notify stLive "u" "hello" 6 none 8 "r").1,
   ((last_session_updated_only_by_notify stLive "u" "hello" 6 none 8 "r").2
      "c" "done" "info" "sess1" sessionA 10 (by decide) (by decide)).1,
   ((last_session_updated_only_by_notify stLive "u" "hello" 6 none 8 "r").2
      "c" "done" "info" "sess1" sessionA 10 (by decide) (by decide)).2
      "u" "go on" 11 none 9 "r2" (by decide) (by decide)⟩

end InnerVoice

namespace InnerVoice

theorem lookup_isSome_false_eq_none {β : Type} (k : String) (l : List (String × β))
    (h : (List.lookup k l).isSome = false) : List.lookup k l = none := by
  revert h
  cases List.lookup k l <;> simp

theorem spawnClaude_success_entry (projects : List Project) (procs : SpawnerMap)
    (name : String) (prompt : Option String) (spawnError : Option String) (pid now : Nat)
    (h : (spawnClaude projects procs name prompt spawnError pid now).2.success = true) :
    List.lookup name (spawnClaude projects procs name prompt spawnError pid now).1 =
      some { projectName := name, pid := pid, startTime := now, initialPrompt := prompt } := by
  unfold spawnClaude at h ⊢
  by_cases hb : (List.lookup name procs).isSome = true
  · rw [if_pos hb] at h
    exact absurd h (by simp)
  · rw [if_neg hb] at h ⊢
    cases hf : findProject projects name with
    | none => simp [hf] at h
    | some proj =>
      cases se : spawnError with
      | some e => simp [hf, se] at h
      | none =>
        simp only [hf, se]
        have hnone : List.lookup name procs = none :=
          lookup_isSome_false_eq_none name procs
            (by revert hb; cases (List.lookup name procs).isSome <;> simp)
        rw [lookup_append_of_none _ _ _ hnone]
        simp [List.lookup_cons]

theorem spawnClaude_failure_state (projects : List Project) (procs : SpawnerMap)
    (name : String) (prompt : Option String) (spawnError : Option String) (pid now : Nat)
    (h : (spawnClaude projects procs name prompt spawnError pid now).2.success = false) :
    (spawnClaude projects procs name prompt spawnError pid now).1 = procs := by
  unfold spawnClaude at h ⊢
  by_cases hb : (List.lookup name procs).isSome = true
  · rw [if_pos hb]
  · rw [if_neg hb] at h ⊢
    cases hf : findProject projects name with
    | none =>
      simp only [hf]
    | some proj =>
      cases se : spawnError with
      | some e => simp only [hf, se]
      | none => simp [hf, se] at h

theorem enqueueTask_mem (store : QueueStore) (inp : NewTaskInput) (now : Nat) (rand : String) :
    (enqueueTask store inp now rand).2 ∈
      loadQueue (enqueueTask store inp now rand).1 inp.projectName
    ∧ (enqueueTask store inp now rand).2.message = inp.message
    ∧ (enqueueTask store inp now rand).2.status = TaskStatus.pending := by
  refine ⟨?_, rfl, rfl⟩
  show _ ∈ loadQueue (saveQueue store inp.projectName
    (loadQueue store inp.projectName ++ [_])) inp.projectName
  rw [loadQueue_saveQueue]
  exact List.mem_append_right _ (List.mem_singleton.mpr rfl)

theorem routeDead_spawn_or_enqueue (st : BridgeState)
    (targetProject actualMessage from_ : String)
    (now : Nat) (spawnError : Option String) (pid : Nat) (rand : String) :
    (∃ pname entry,
       (routeDead st targetProject actualMessage from_ now spawnError pid rand).2 =
         RouteOutcome.autoSpawned pname
       ∧ List.lookup pname
           (routeDead st targetProject actualMessage from_ now spawnError pid rand).1.procs =
         some entry
       ∧ entry.initialPrompt = some actualMessage)
    ∨ (((routeDead st targetProject actualMessage from_ now spawnError pid rand).2 =
          RouteOutcome.spawnFailedQueued targetProject
        ∨ (routeDead st targetProject actualMessage from_ now spawnError pid rand).2 =
          RouteOutcome.queuedOffline targetProject
        ∨ (routeDead st targetProject actualMessage from_ now spawnError pid rand).2 =
          RouteOutcome.queuedUnregistered targetProject)
       ∧ ∃ tsk ∈ loadQueue
           (routeDead st targetProject actualMessage from_ now spawnError pid rand).1.queues
           targetProject,
           tsk.message = actualMessage ∧ tsk.status = TaskStatus.pending) := by
  unfold routeDead
  cases hf : findProject st.projects targetProject with
  | none =>
    right
    dsimp only
    refine ⟨Or.inr (Or.inr rfl), ?_⟩
    obtain ⟨hm, hmsg, hst⟩ := enqueueTask_mem st.queues
      { projectName := targetProject, projectPath := "/unknown", message := actualMessage,
        from_ := from_, timestamp := now, priority := TaskPriority.normal } now rand
    exact ⟨_, hm, hmsg, hst⟩
  | some project =>
    dsimp only
    by_cases hauto : project.autoSpawn = true
    · rw [if_pos hauto]
      cases hsucc : (spawnClaude st.projects st.procs project.name
          (some actualMessage) spawnError pid now).2.success with
      | true =>
        left
        rw [if_pos rfl]
        exact ⟨project.name,
          { projectName := project.name, pid := pid, startTime := now,
            initialPrompt := some actualMessage },
          rfl,
          spawnClaude_success_entry st.projects st.procs project.name
            (some actualMessage) spawnError pid now hsucc,
          rfl⟩
      | false =>
        right
        rw [if_neg (show ¬(false = true) from by decide)]
        refine ⟨Or.inl rfl, ?_⟩
        obtain ⟨hm, hmsg, hst⟩ := enqueueTask_mem st.queues
          { projectName := targetProject, projectPath := project.path,
            message := actualMessage, from_ := from_, timestamp := now,
            priority := TaskPriority.normal } now rand
        exact ⟨_, hm, hmsg, hst⟩
    · rw [if_neg hauto]
      right
      refine ⟨Or.inr (Or.inl rfl), ?_⟩
      obtain ⟨hm, hmsg, hst⟩ := enqueueTask_mem st.queues
        { projectName := targetProject, projectPath := project.path,
          message := actualMessage, from_ := from_, timestamp := now,
          priority := TaskPriority.normal } now rand
      exact ⟨_, hm, hmsg, hst⟩

end InnerVoice

namespace InnerVoice

/-- C1: when a session is registered for the routed project but the
supervisor reports no live process, handling the prefixed message evicts
the stale session from the registry and falls through to the directory
lookup, ending in an auto-spawn that carries the payload as the initial
prompt or in an enqueued pending task that carries the payload; the
message is never dropped. -/
theorem stale_session_self_heal
    (st : BridgeState) (from_ msg targetProject actualMessage : String)
    (now pid : Nat) (spawnError : Option String) (rand : String) (s : ClaudeSession)
    (hq : st.pendingQuestions = [])
    (hparse : matchTarget msg = some (targetProject, actualMessage))
    (hsess : (st.activeSessions.map Prod.snd).find?
        (fun x => lowerStr x.projectName == lowerStr targetProject) = some s)
    (hdead : isClaudeRunning st.procs targetProject = false) :
    List.lookup s.id (handleText st from_ msg now spawnError pid rand).1.activeSessions = none
    ∧ ((∃ pname entry,
          (handleText st from_ msg now spawnError pid rand).2 =
            RouteOutcome.autoSpawned pname
          ∧ List.lookup pname (handleText st from_ msg now spawnError pid rand).1.procs =
              some entry
          ∧ entry.initialPrompt = some actualMessage)
       ∨ (((handleText st from_ msg now spawnError pid rand).2 =
             RouteOutcome.spawnFailedQueued targetProject
           ∨ (handleText st from_ msg now spawnError pid rand).2 =
             RouteOutcome.queuedOffline targetProject
           ∨ (handleText st from_ msg now spawnError pid rand).2 =
             RouteOutcome.queuedUnregistered targetProject)
          ∧ ∃ tsk ∈ loadQueue
              (handleText st from_ msg now spawnError pid rand).1.queues targetProject,
              tsk.message = actualMessage ∧ tsk.status = TaskStatus.pending)) := by
  have hred : handleText st from_ msg now spawnError pid rand =
      routeDead { st with activeSessions :=
          st.activeSessions.filter (fun p => !(p.1 == s.id)) }
        targetProject actualMessage from_ now spawnError pid rand := by
    unfold handleText
    simp only [hq, hparse, hsess, hdead, Bool.false_eq_true, if_false]
  rw [hred]
  constructor
  · rw [routeDead_activeSessions]
    exact lookup_filter_out s.id st.activeSessions
  · exact routeDead_spawn_or_enqueue _ targetProject actualMessage from_ now spawnError
      pid rand

/-- C1 witness: in the stale state for Beta, the prefixed message evicts
the stale session. -/
theorem stale_session_self_heal_witness :
    List.lookup sessionA.id
      (handleText stStale "user" "Beta: build it" 9 none 7 "r").1.activeSessions = none :=
  (stale_session_self_heal stStale "user" "Beta: build it" "Beta" "build it" 9 7 none "r"
    sessionA (by decide) (by decide) (by decide) (by decide)).1

end InnerVoice
